import Mathlib

/-!
Shallow embedding of the Ethernet link-layer implementation
(`external/google/gopacket/layers/ethernet.go`) and proofs of its
specified properties.  Byte buffers are `List Nat` whose elements stand
for bytes (values `< 256` where a claim needs it); Go slices of the
buffer become `take`/`drop` views; the mutating Go methods become pure
functions returning the updated state together with an optional error
value.
-/

/-- Modelled from the spec: the numeric value of the `EthernetTypeLLC`
sentinel.  Its defining enum file is not among the given sources; the spec
describes it as the fixed length-prefixed sentinel next-layer type forced
whenever the 16-bit field is a length (`< 0x0600`), so it is taken as `0`,
the standard IEEE 802.3 / gopacket value, which lies in the length range. -/
def EthernetTypeLLC : Nat := 0

/-- The decode error of `Ethernet.DecodeFromBytes`: the single `errors.New`
value it can return, whose Go message is "Ethernet packet too small". -/
inductive DecodeError where
  | packetTooSmall
deriving Repr, DecidableEq

/-- The serialize errors of `Ethernet.SerializeTo`, one constructor per
`fmt.Errorf` site: "invalid dst MAC", "invalid src MAC", "ethernet type %v
not compatible with length value %v", "invalid ethernet length %v". -/
inductive SerializeError where
  | invalidDstMAC
  | invalidSrcMAC
  | typeNotCompatibleWithLength
  | invalidEthernetLength
deriving Repr, DecidableEq

/-- Modelled from the spec: `gopacket.DecodeFeedback` (not among the given
sources) carries the truncation flag that `SetTruncated` sets; once true it
stays true for the whole decode pass. -/
structure DecodeFeedback where
  truncated : Bool
deriving Repr, DecidableEq

/-- Embedding of `binary.BigEndian.Uint16` applied to two bytes. -/
def bigEndianUint16 (hi lo : Nat) : Nat := 256 * hi + lo

/-- Embedding of `binary.BigEndian.PutUint16`: the two bytes written for a
16-bit value (the masks reflect the byte extraction of the Go standard
library). -/
def putUint16 (v : Nat) : List Nat := [v / 256 % 256, v % 256]

/-- The `Ethernet` layer struct of `ethernet.go`.  The embedded `BaseLayer`
(its definition is not among the given sources; the spec describes it as the
`header`/`payload` byte-range pair of a decoded layer) is inlined as the
`contents` and `payload` fields. -/
structure Ethernet where
  dstMAC : List Nat
  srcMAC : List Nat
  ethernetType : Nat
  length : Nat
  contents : List Nat
  payload : List Nat
deriving Repr, DecidableEq

/-- The fixed-field parse of `Ethernet.DecodeFromBytes` before the
length-vs-type disambiguation: the assignments to `DstMAC`, `SrcMAC`,
`EthernetType`, `BaseLayer` and `Length = 0` performed on a buffer of at
least 14 bytes, before any length-based trimming of the payload. -/
def Ethernet.parseFixed (data : List Nat) : Ethernet :=
  { dstMAC := data.take 6
    srcMAC := (data.drop 6).take 6
    ethernetType := bigEndianUint16 (data.getD 12 0) (data.getD 13 0)
    length := 0
    contents := data.take 14
    payload := data.drop 14 }

/-- The state of the layer inside the `eth.EthernetType < 0x0600` branch of
`Ethernet.DecodeFromBytes`, after the assignments `eth.Length =
uint16(eth.EthernetType); eth.EthernetType = EthernetTypeLLC` and before the
payload comparison. -/
def Ethernet.parseLength (data : List Nat) : Ethernet :=
  { Ethernet.parseFixed data with
      length := (Ethernet.parseFixed data).ethernetType,
      ethernetType := EthernetTypeLLC }

/-- `Ethernet.DecodeFromBytes` of `ethernet.go`.  The Go method mutates the
receiver and the feedback and returns an error; here it returns the updated
layer, the updated feedback and the optional error message.  On the
too-short path the layer and feedback are returned unchanged.  The Go
comparison `cmp := len(eth.Payload) - int(eth.Length)` over machine
integers becomes the two `Nat` comparisons (`cmp < 0` is
`payload.length < length`, `cmp > 0` is `length < payload.length`), and the
trim `eth.Payload[:len(eth.Payload)-cmp]` keeps the first `length` bytes. -/
def Ethernet.DecodeFromBytes (eth : Ethernet) (df : DecodeFeedback)
    (data : List Nat) : Ethernet × DecodeFeedback × Option DecodeError :=
  if data.length < 14 then (eth, df, some .packetTooSmall)
  else if (Ethernet.parseFixed data).ethernetType < 0x0600 then
    if (Ethernet.parseLength data).payload.length <
        (Ethernet.parseLength data).length then
      (Ethernet.parseLength data, { df with truncated := true }, none)
    else if (Ethernet.parseLength data).length <
        (Ethernet.parseLength data).payload.length then
      ({ Ethernet.parseLength data with
          payload := (Ethernet.parseLength data).payload.take
            (Ethernet.parseLength data).length }, df, none)
    else (Ethernet.parseLength data, df, none)
  else (Ethernet.parseFixed data, df, none)

/-- The minimum-frame-size padding at the end of `Ethernet.SerializeTo`:
if the buffer holds fewer than 60 bytes, zero bytes are appended up to 60
(the appended region is covered by `lotsOfZeros`, an all-zero array).
The append on the spec-modelled serialize buffer always succeeds. -/
def ethPad (b : List Nat) : List Nat × Option SerializeError :=
  if b.length < 60 then (b ++ List.replicate (60 - b.length) 0, none)
  else (b, none)

/-- The value held by `eth.Length` inside the length-mode branch of
`Ethernet.SerializeTo` after the optional `FixLengths` recomputation
`eth.Length = uint16(len(payload))` (the `uint16` conversion is the
`% 65536` reduction). -/
def effLength (eth : Ethernet) (fixLengths : Bool) (b : List Nat) : Nat :=
  if fixLengths then b.length % 65536 else eth.length

/-- `Ethernet.SerializeTo` of `ethernet.go`.  The `gopacket.SerializeBuffer`
is not among the given sources; modelled from the spec as a growable byte
list: `Bytes()` is the list itself, `PrependBytes(14)` grows it at the front
by a writable 14-byte region (taken zero-initialised; bytes `12:14` of it
are left untouched on the error paths that return before writing them) and
`AppendBytes` grows it at the back, neither of which can fail.  `opts` is
reduced to its `FixLengths` flag, the only option the method consults.
The result is the buffer contents after the call plus the optional error. -/
def Ethernet.SerializeTo (eth : Ethernet) (fixLengths : Bool)
    (b : List Nat) : List Nat × Option SerializeError :=
  if eth.dstMAC.length ≠ 6 then (b, some .invalidDstMAC)
  else if eth.srcMAC.length ≠ 6 then (b, some .invalidSrcMAC)
  else if eth.length ≠ 0 ∨ eth.ethernetType = EthernetTypeLLC then
    if eth.ethernetType ≠ EthernetTypeLLC then
      (eth.dstMAC ++ eth.srcMAC ++ 0 :: 0 :: b,
       some .typeNotCompatibleWithLength)
    else if 0x0600 < effLength eth fixLengths b then
      (eth.dstMAC ++ eth.srcMAC ++ 0 :: 0 :: b,
       some .invalidEthernetLength)
    else ethPad (eth.dstMAC ++ eth.srcMAC ++
      putUint16 (effLength eth fixLengths b) ++ b)
  else ethPad (eth.dstMAC ++ eth.srcMAC ++
    putUint16 (eth.ethernetType % 65536) ++ b)

/-- The `EthernetHeader` byte-slice type of `ethernet.go`. -/
abbrev EthernetHeader := List Nat

/-- `EthernetHeader.SwapSrcDst`: swaps the destination bytes `o[0:6]` and
the source bytes `o[6:12]` in place; embedded as the reordered view of a
header of at least 12 bytes. -/
def EthernetHeader.SwapSrcDst (o : EthernetHeader) : EthernetHeader :=
  (o.drop 6).take 6 ++ o.take 6 ++ o.drop 12

/-- `EthernetHeader.GetSrcAddress`: the view `o[6:12]`. -/
def EthernetHeader.GetSrcAddress (o : EthernetHeader) : List Nat :=
  (o.drop 6).take 6

/-- `EthernetHeader.GetDestAddress`: the view `o[0:6]`. -/
def EthernetHeader.GetDestAddress (o : EthernetHeader) : List Nat :=
  o.take 6

/-- `EthernetHeader.GetNextProtocol`: the big-endian 16-bit field at
`o[12:14]`. -/
def EthernetHeader.GetNextProtocol (o : EthernetHeader) : Nat :=
  bigEndianUint16 (o.getD 12 0) (o.getD 13 0)

/-- An arbitrary initial layer value, standing for the zero `Ethernet`
struct a decode starts from. -/
def ethZero : Ethernet :=
  { dstMAC := [], srcMAC := [], ethernetType := 0, length := 0,
    contents := [], payload := [] }

/-- An initial decode feedback with the truncation flag clear. -/
def dfZero : DecodeFeedback := { truncated := false }

/-- The worked example frame of the spec: destination `6 × 0xAA`, source
`6 × 0xBB`, type field `0x0800`, 46 zero payload bytes. -/
def exFrameIPv4 : List Nat :=
  List.replicate 6 0xAA ++ List.replicate 6 0xBB ++ [0x08, 0x00] ++
    List.replicate 46 0

/-- A frame whose 16-bit field is the length `5` with 10 payload bytes
available, so the payload view gets trimmed. -/
def exFrameTrim : List Nat :=
  List.replicate 6 0xAA ++ List.replicate 6 0xBB ++ [0x00, 0x05] ++
    List.replicate 10 2

/-- A frame whose 16-bit field is the length `5` with only 3 payload bytes
available, so decoding flags truncation. -/
def exFrameTrunc : List Nat :=
  List.replicate 6 0xAA ++ List.replicate 6 0xBB ++ [0x00, 0x05] ++
    List.replicate 3 2

/-- A length-mode layer whose `Length` is exactly `0x0600`, the boundary
value of the serialize-time range check. -/
def ethBoundary : Ethernet :=
  { dstMAC := List.replicate 6 1, srcMAC := List.replicate 6 2,
    ethernetType := EthernetTypeLLC, length := 0x0600,
    contents := [], payload := [] }

/-- A length-mode layer with a small in-range `Length`. -/
def ethLLC : Ethernet :=
  { dstMAC := List.replicate 6 1, srcMAC := List.replicate 6 2,
    ethernetType := EthernetTypeLLC, length := 5,
    contents := [], payload := [] }

/-- A layer with a nonzero `Length` but a non-sentinel type. -/
def ethBadMode : Ethernet :=
  { dstMAC := List.replicate 6 1, srcMAC := List.replicate 6 2,
    ethernetType := 0x0800, length := 7,
    contents := [], payload := [] }

/-- A type-mode layer used to exercise serialization and padding. -/
def ethIPv4 : Ethernet :=
  { dstMAC := List.replicate 6 1, srcMAC := List.replicate 6 2,
    ethernetType := 0x0800, length := 0,
    contents := [], payload := [] }

/-- A layer whose destination address has the wrong byte width. -/
def ethBadMAC : Ethernet :=
  { dstMAC := [1, 2, 3], srcMAC := List.replicate 6 2,
    ethernetType := 0x0800, length := 0,
    contents := [], payload := [] }

/-- A 14-byte raw header view used with the header helper operations. -/
def exHeader : EthernetHeader :=
  List.replicate 6 3 ++ List.replicate 6 4 ++ [8, 0]

/-! Helper lemmas about the decode branches. -/

theorem parseFixed_ethernetType (data : List Nat) :
    (Ethernet.parseFixed data).ethernetType =
      bigEndianUint16 (data.getD 12 0) (data.getD 13 0) := rfl

theorem parseLength_payload (data : List Nat) :
    (Ethernet.parseLength data).payload = data.drop 14 := rfl

theorem parseLength_length (data : List Nat) :
    (Ethernet.parseLength data).length =
      (Ethernet.parseFixed data).ethernetType := rfl

theorem decodeFromBytes_type_branch (eth : Ethernet) (df : DecodeFeedback)
    (data : List Nat) (h14 : 14 ≤ data.length)
    (hty : 0x0600 ≤ (Ethernet.parseFixed data).ethernetType) :
    eth.DecodeFromBytes df data = (Ethernet.parseFixed data, df, none) := by
  unfold Ethernet.DecodeFromBytes
  rw [if_neg (by omega), if_neg (by omega)]

theorem decodeFromBytes_trunc_branch (eth : Ethernet) (df : DecodeFeedback)
    (data : List Nat) (h14 : 14 ≤ data.length)
    (hty : (Ethernet.parseFixed data).ethernetType < 0x0600)
    (hgt : data.length - 14 < (Ethernet.parseFixed data).ethernetType) :
    eth.DecodeFromBytes df data =
      (Ethernet.parseLength data, { df with truncated := true }, none) := by
  unfold Ethernet.DecodeFromBytes
  rw [if_neg (by omega), if_pos hty, if_pos
    (by rw [parseLength_payload, parseLength_length, List.length_drop]; omega)]

theorem decodeFromBytes_trim_branch (eth : Ethernet) (df : DecodeFeedback)
    (data : List Nat) (h14 : 14 ≤ data.length)
    (hty : (Ethernet.parseFixed data).ethernetType < 0x0600)
    (hlt : (Ethernet.parseFixed data).ethernetType < data.length - 14) :
    eth.DecodeFromBytes df data =
      ({ Ethernet.parseLength data with
          payload := (data.drop 14).take
            (Ethernet.parseFixed data).ethernetType }, df, none) := by
  unfold Ethernet.DecodeFromBytes
  rw [if_neg (by omega), if_pos hty, if_neg
    (by rw [parseLength_payload, parseLength_length, List.length_drop]; omega),
    if_pos
    (by rw [parseLength_payload, parseLength_length, List.length_drop]; omega)]
  rw [parseLength_payload, parseLength_length]

theorem decodeFromBytes_exact_branch (eth : Ethernet) (df : DecodeFeedback)
    (data : List Nat) (h14 : 14 ≤ data.length)
    (hty : (Ethernet.parseFixed data).ethernetType < 0x0600)
    (heq : (Ethernet.parseFixed data).ethernetType = data.length - 14) :
    eth.DecodeFromBytes df data = (Ethernet.parseLength data, df, none) := by
  unfold Ethernet.DecodeFromBytes
  rw [if_neg (by omega), if_pos hty, if_neg
    (by rw [parseLength_payload, parseLength_length, List.length_drop]; omega),
    if_neg
    (by rw [parseLength_payload, parseLength_length, List.length_drop]; omega)]

/-- The fields of the decoded layer that do not depend on the
length-vs-type branch, plus the branch-dependent type and length fields. -/
theorem decode_fields (eth : Ethernet) (df : DecodeFeedback)
    (data : List Nat) (h14 : 14 ≤ data.length) :
    (eth.DecodeFromBytes df data).2.2 = none ∧
    (eth.DecodeFromBytes df data).1.dstMAC = data.take 6 ∧
    (eth.DecodeFromBytes df data).1.srcMAC = (data.drop 6).take 6 ∧
    (eth.DecodeFromBytes df data).1.contents = data.take 14 ∧
    ((Ethernet.parseFixed data).ethernetType < 0x0600 →
      (eth.DecodeFromBytes df data).1.ethernetType = EthernetTypeLLC ∧
      (eth.DecodeFromBytes df data).1.length =
        (Ethernet.parseFixed data).ethernetType) ∧
    (0x0600 ≤ (Ethernet.parseFixed data).ethernetType →
      (eth.DecodeFromBytes df data).1.ethernetType =
        (Ethernet.parseFixed data).ethernetType ∧
      (eth.DecodeFromBytes df data).1.length = 0) := by
  by_cases hty : (Ethernet.parseFixed data).ethernetType < 0x0600
  · rcases Nat.lt_trichotomy (Ethernet.parseFixed data).ethernetType
      (data.length - 14) with hlt | heqc | hgt
    · rw [decodeFromBytes_trim_branch eth df data h14 hty hlt]
      refine ⟨rfl, rfl, rfl, rfl, fun _ => ⟨rfl, rfl⟩, fun h => absurd h (by omega)⟩
    · rw [decodeFromBytes_exact_branch eth df data h14 hty heqc]
      refine ⟨rfl, rfl, rfl, rfl, fun _ => ⟨rfl, rfl⟩, fun h => absurd h (by omega)⟩
    · rw [decodeFromBytes_trunc_branch eth df data h14 hty hgt]
      refine ⟨rfl, rfl, rfl, rfl, fun _ => ⟨rfl, rfl⟩, fun h => absurd h (by omega)⟩
  · rw [decodeFromBytes_type_branch eth df data h14 (by omega)]
    exact ⟨rfl, rfl, rfl, rfl, fun h => absurd h hty, fun _ => ⟨rfl, rfl⟩⟩

/-! Helper lemmas about header views and the serialize branches. -/

theorem swapSrcDst_append (a b c : List Nat) (ha : a.length = 6)
    (hb : b.length = 6) :
    EthernetHeader.SwapSrcDst (a ++ b ++ c) = b ++ a ++ c := by
  unfold EthernetHeader.SwapSrcDst
  have hd12 : (a ++ b ++ c).drop 12 = c :=
    List.drop_left' (by rw [List.length_append, ha, hb])
  rw [hd12, List.append_assoc a b c, List.drop_left' ha, List.take_left' ha,
    List.take_left' hb]

theorem getSrc_append (a b c : List Nat) (ha : a.length = 6)
    (hb : b.length = 6) :
    EthernetHeader.GetSrcAddress (a ++ b ++ c) = b := by
  unfold EthernetHeader.GetSrcAddress
  rw [List.append_assoc a b c, List.drop_left' ha, List.take_left' hb]

theorem getDest_append (a b c : List Nat) (ha : a.length = 6) :
    EthernetHeader.GetDestAddress (a ++ b ++ c) = a := by
  unfold EthernetHeader.GetDestAddress
  rw [List.append_assoc a b c, List.take_left' ha]

theorem drop12_append (a b c : List Nat) (ha : a.length = 6)
    (hb : b.length = 6) :
    (a ++ b ++ c).drop 12 = c :=
  List.drop_left' (by rw [List.length_append, ha, hb])

theorem header_decomp (o : List Nat) (h : 12 ≤ o.length) :
    o = o.take 6 ++ (o.drop 6).take 6 ++ o.drop 12 ∧
    (o.take 6).length = 6 ∧ ((o.drop 6).take 6).length = 6 := by
  refine ⟨?_, ?_, ?_⟩
  · conv_lhs => rw [← List.take_append_drop 12 o]
    rw [show (12 : Nat) = 6 + 6 from rfl, List.take_add]
  · rw [List.length_take]; omega
  · rw [List.length_take, List.length_drop]; omega

theorem ethPad_bytes (y : List Nat) :
    (ethPad y).1 = y ++ List.replicate (60 - y.length) 0 := by
  unfold ethPad
  split
  · rfl
  · rw [Nat.sub_eq_zero_of_le (by omega), List.replicate_zero, List.append_nil]

theorem ethPad_err (y : List Nat) : (ethPad y).2 = none := by
  unfold ethPad; split <;> rfl

theorem putUint16_length (v : Nat) : (putUint16 v).length = 2 := rfl

theorem serializeTo_type_eq (eth : Ethernet) (fl : Bool) (b : List Nat)
    (hd : eth.dstMAC.length = 6) (hs : eth.srcMAC.length = 6)
    (hl : eth.length = 0) (ht : eth.ethernetType ≠ EthernetTypeLLC) :
    eth.SerializeTo fl b =
      ethPad (eth.dstMAC ++ eth.srcMAC ++
        putUint16 (eth.ethernetType % 65536) ++ b) := by
  unfold Ethernet.SerializeTo
  rw [if_neg (by simp [hd]), if_neg (by simp [hs]), if_neg (by simp [hl, ht])]

theorem serializeTo_llc_eq (eth : Ethernet) (fl : Bool) (b : List Nat)
    (hd : eth.dstMAC.length = 6) (hs : eth.srcMAC.length = 6)
    (ht : eth.ethernetType = EthernetTypeLLC)
    (hle : effLength eth fl b ≤ 0x0600) :
    eth.SerializeTo fl b =
      ethPad (eth.dstMAC ++ eth.srcMAC ++
        putUint16 (effLength eth fl b) ++ b) := by
  unfold Ethernet.SerializeTo
  rw [if_neg (by simp [hd]), if_neg (by simp [hs]), if_pos (Or.inr ht),
    if_neg (by simp [ht]), if_neg (by omega)]

theorem serializeTo_success_shape (eth : Ethernet) (fl : Bool) (b : List Nat)
    (hsucc : (eth.SerializeTo fl b).2 = none) :
    ∃ hdr : List Nat, hdr.length = 14 ∧
      eth.SerializeTo fl b = ethPad (hdr ++ b) := by
  unfold Ethernet.SerializeTo at hsucc ⊢
  split_ifs at hsucc ⊢ with h1 h2 h3 h4 h5
  · refine ⟨eth.dstMAC ++ eth.srcMAC ++ putUint16 (effLength eth fl b),
      ?_, rfl⟩
    simp only [List.length_append, putUint16_length]
    simp only [ne_eq, not_not] at h1 h2
    omega
  · refine ⟨eth.dstMAC ++ eth.srcMAC ++ putUint16 (eth.ethernetType % 65536),
      ?_, rfl⟩
    simp only [List.length_append, putUint16_length]
    simp only [ne_eq, not_not] at h1 h2
    omega

theorem take_two_of_le (l : List Nat) (h : 2 ≤ l.length) :
    l.take 2 = [l.getD 0 0, l.getD 1 0] := by
  cases l with
  | nil => simp at h
  | cons a t =>
    cases t with
    | nil => simp at h
    | cons b t2 => simp [List.getD]

theorem getD_drop (data : List Nat) (i j : Nat) :
    (data.drop i).getD j 0 = data.getD (i + j) 0 := by
  rw [List.getD_eq_getElem?_getD, List.getD_eq_getElem?_getD,
    List.getElem?_drop]

/-- Decomposing the first 14 bytes of a byte buffer into the destination
view, the source view and the big-endian re-encoding of the 16-bit field:
the exact bytes `Ethernet.SerializeTo` writes back after a decode. -/
theorem take14_decomp (data : List Nat) (h14 : 14 ≤ data.length)
    (hb12 : data.getD 12 0 < 256) (hb13 : data.getD 13 0 < 256) :
    data.take 14 = data.take 6 ++ (data.drop 6).take 6 ++
      putUint16 (bigEndianUint16 (data.getD 12 0) (data.getD 13 0)) := by
  have hput : putUint16 (bigEndianUint16 (data.getD 12 0) (data.getD 13 0)) =
      [data.getD 12 0, data.getD 13 0] := by
    simp only [putUint16, bigEndianUint16, List.cons.injEq, and_true]
    omega
  have t1 : data.take 14 = data.take 12 ++ (data.drop 12).take 2 := by
    have := List.take_add data 12 2
    simpa using this
  have t2 : data.take 12 = data.take 6 ++ (data.drop 6).take 6 := by
    have := List.take_add data 6 6
    simpa using this
  have t3 : (data.drop 12).take 2 = [data.getD 12 0, data.getD 13 0] := by
    rw [take_two_of_le (data.drop 12) (by rw [List.length_drop]; omega),
      getD_drop, getD_drop]
  rw [t1, t2, t3, hput, List.append_assoc]

theorem bigEndianUint16_lt (hi lo : Nat) (hhi : hi < 256) (hlo : lo < 256) :
    bigEndianUint16 hi lo < 65536 := by
  simp only [bigEndianUint16]; omega

theorem getD_mem_lt (data : List Nat) (i : Nat) (hi : i < data.length)
    (hb : ∀ x ∈ data, x < 256) : data.getD i 0 < 256 := by
  rw [List.getD_eq_getElem data 0 hi]
  exact hb _ (List.getElem_mem hi)

theorem ethPad_take14 (x y : List Nat) (hx : x.length = 14) :
    ((ethPad (x ++ y)).1).take 14 = x := by
  rw [ethPad_bytes, List.append_assoc,
    List.take_append_of_le_length (by omega), ← hx, List.take_length]

/-! Claim theorems. -/

/-- C1: for every byte buffer of length at least 14, `DecodeFromBytes`
succeeds; a big-endian 16-bit field in `[0x0600, 0xFFFF]` becomes
`EthernetType` with `Length = 0`, a field in `[0, 0x0600)` becomes `Length`
with `EthernetType = EthernetTypeLLC`; in both cases `DstMAC` is bytes 0:6,
`SrcMAC` is bytes 6:12, the header is the first 14 bytes, and the payload
before any length-based trimming is the remaining bytes. -/
theorem ethernet_decode_fixed_fields (eth : Ethernet) (df : DecodeFeedback)
    (data : List Nat) (h14 : 14 ≤ data.length)
    (_hbytes : ∀ x ∈ data, x < 256) :
    (eth.DecodeFromBytes df data).2.2 = none ∧
    (0x0600 ≤ bigEndianUint16 (data.getD 12 0) (data.getD 13 0) ∧
        bigEndianUint16 (data.getD 12 0) (data.getD 13 0) ≤ 0xFFFF →
      (eth.DecodeFromBytes df data).1.ethernetType =
        bigEndianUint16 (data.getD 12 0) (data.getD 13 0) ∧
      (eth.DecodeFromBytes df data).1.length = 0) ∧
    (bigEndianUint16 (data.getD 12 0) (data.getD 13 0) < 0x0600 →
      (eth.DecodeFromBytes df data).1.length =
        bigEndianUint16 (data.getD 12 0) (data.getD 13 0) ∧
      (eth.DecodeFromBytes df data).1.ethernetType = EthernetTypeLLC) ∧
    (eth.DecodeFromBytes df data).1.dstMAC = data.take 6 ∧
    (eth.DecodeFromBytes df data).1.srcMAC = (data.drop 6).take 6 ∧
    (eth.DecodeFromBytes df data).1.contents = data.take 14 ∧
    (Ethernet.parseFixed data).payload = data.drop 14 := by
  obtain ⟨he, hd, hs, hc, hlt, hge⟩ := decode_fields eth df data h14
  have hfx : (Ethernet.parseFixed data).ethernetType =
      bigEndianUint16 (data.getD 12 0) (data.getD 13 0) := rfl
  refine ⟨he, fun h => ?_, fun h => ?_, hd, hs, hc, rfl⟩
  · have hr := hge (by rw [hfx]; exact h.1)
    rw [hfx] at hr
    exact hr
  · have hr := hlt (by rw [hfx]; exact h)
    rw [hfx] at hr
    exact ⟨hr.2, hr.1⟩

/-- Instantiation of `ethernet_decode_fixed_fields` on the spec's worked
example frame. -/
theorem ethernet_decode_fixed_fields_witness :
    (14 ≤ exFrameIPv4.length ∧ ∀ x ∈ exFrameIPv4, x < 256) ∧
    ((ethZero.DecodeFromBytes dfZero exFrameIPv4).2.2 = none ∧
    (0x0600 ≤ bigEndianUint16 (exFrameIPv4.getD 12 0) (exFrameIPv4.getD 13 0) ∧
        bigEndianUint16 (exFrameIPv4.getD 12 0) (exFrameIPv4.getD 13 0) ≤ 0xFFFF →
      (ethZero.DecodeFromBytes dfZero exFrameIPv4).1.ethernetType =
        bigEndianUint16 (exFrameIPv4.getD 12 0) (exFrameIPv4.getD 13 0) ∧
      (ethZero.DecodeFromBytes dfZero exFrameIPv4).1.length = 0) ∧
    (bigEndianUint16 (exFrameIPv4.getD 12 0) (exFrameIPv4.getD 13 0) < 0x0600 →
      (ethZero.DecodeFromBytes dfZero exFrameIPv4).1.length =
        bigEndianUint16 (exFrameIPv4.getD 12 0) (exFrameIPv4.getD 13 0) ∧
      (ethZero.DecodeFromBytes dfZero exFrameIPv4).1.ethernetType = EthernetTypeLLC) ∧
    (ethZero.DecodeFromBytes dfZero exFrameIPv4).1.dstMAC = exFrameIPv4.take 6 ∧
    (ethZero.DecodeFromBytes dfZero exFrameIPv4).1.srcMAC = (exFrameIPv4.drop 6).take 6 ∧
    (ethZero.DecodeFromBytes dfZero exFrameIPv4).1.contents = exFrameIPv4.take 14 ∧
    (Ethernet.parseFixed exFrameIPv4).payload = exFrameIPv4.drop 14) :=
  ⟨⟨by decide, by decide⟩,
    ethernet_decode_fixed_fields ethZero dfZero exFrameIPv4 (by decide) (by decide)⟩

/-- C3: decoding a buffer of at most 13 bytes fails with the too-short
error and leaves the layer and the feedback untouched; the resulting
triple is independent of the buffer's contents, so no byte at index 13 or
beyond is read. -/
theorem ethernet_decode_too_short (eth : Ethernet) (df : DecodeFeedback)
    (data : List Nat) (h : data.length ≤ 13) :
    eth.DecodeFromBytes df data =
      (eth, df, some DecodeError.packetTooSmall) := by
  unfold Ethernet.DecodeFromBytes
  rw [if_pos (by omega)]

/-- Instantiation of `ethernet_decode_too_short` on a 13-byte buffer. -/
theorem ethernet_decode_too_short_witness :
    (List.replicate 13 7 : List Nat).length ≤ 13 ∧
    ethZero.DecodeFromBytes dfZero (List.replicate 13 7) =
      (ethZero, dfZero, some DecodeError.packetTooSmall) :=
  ⟨by decide, ethernet_decode_too_short ethZero dfZero _ (by decide)⟩

/-- C4: if the length field exceeds the available payload bytes, decode
succeeds, sets the truncation flag on the feedback, and keeps the payload
view equal to all remaining bytes after the header. -/
theorem ethernet_decode_truncation (eth : Ethernet) (df : DecodeFeedback)
    (data : List Nat) (h14 : 14 ≤ data.length)
    (hty : bigEndianUint16 (data.getD 12 0) (data.getD 13 0) < 0x0600)
    (hgt : data.length - 14 <
      bigEndianUint16 (data.getD 12 0) (data.getD 13 0)) :
    (eth.DecodeFromBytes df data).2.2 = none ∧
    (eth.DecodeFromBytes df data).2.1.truncated = true ∧
    (eth.DecodeFromBytes df data).1.payload = data.drop 14 := by
  rw [decodeFromBytes_trunc_branch eth df data h14 hty hgt]
  exact ⟨rfl, rfl, rfl⟩

/-- Instantiation of `ethernet_decode_truncation` on a frame declaring 5
payload bytes with only 3 available. -/
theorem ethernet_decode_truncation_witness :
    (14 ≤ exFrameTrunc.length ∧
      bigEndianUint16 (exFrameTrunc.getD 12 0) (exFrameTrunc.getD 13 0) < 0x0600 ∧
      exFrameTrunc.length - 14 <
        bigEndianUint16 (exFrameTrunc.getD 12 0) (exFrameTrunc.getD 13 0)) ∧
    ((ethZero.DecodeFromBytes dfZero exFrameTrunc).2.2 = none ∧
    (ethZero.DecodeFromBytes dfZero exFrameTrunc).2.1.truncated = true ∧
    (ethZero.DecodeFromBytes dfZero exFrameTrunc).1.payload =
      exFrameTrunc.drop 14) :=
  ⟨⟨by decide, by decide, by decide⟩,
    ethernet_decode_truncation ethZero dfZero exFrameTrunc
      (by decide) (by decide) (by decide)⟩

/-- C5: if the length field is strictly smaller than the available payload
bytes, decode succeeds, trims the payload view to exactly the first
`Length` bytes after the header, and leaves the feedback untouched. -/
theorem ethernet_decode_trim (eth : Ethernet) (df : DecodeFeedback)
    (data : List Nat) (h14 : 14 ≤ data.length)
    (hty : bigEndianUint16 (data.getD 12 0) (data.getD 13 0) < 0x0600)
    (hlt : bigEndianUint16 (data.getD 12 0) (data.getD 13 0) <
      data.length - 14) :
    (eth.DecodeFromBytes df data).2.2 = none ∧
    (eth.DecodeFromBytes df data).1.payload =
      (data.drop 14).take
        (bigEndianUint16 (data.getD 12 0) (data.getD 13 0)) ∧
    (eth.DecodeFromBytes df data).2.1 = df := by
  rw [decodeFromBytes_trim_branch eth df data h14 hty hlt]
  exact ⟨rfl, rfl, rfl⟩

/-- Instantiation of `ethernet_decode_trim` on the spec's example frame
declaring 5 payload bytes with 10 available. -/
theorem ethernet_decode_trim_witness :
    (14 ≤ exFrameTrim.length ∧
      bigEndianUint16 (exFrameTrim.getD 12 0) (exFrameTrim.getD 13 0) < 0x0600 ∧
      bigEndianUint16 (exFrameTrim.getD 12 0) (exFrameTrim.getD 13 0) <
        exFrameTrim.length - 14) ∧
    ((ethZero.DecodeFromBytes dfZero exFrameTrim).2.2 = none ∧
    (ethZero.DecodeFromBytes dfZero exFrameTrim).1.payload =
      (exFrameTrim.drop 14).take
        (bigEndianUint16 (exFrameTrim.getD 12 0) (exFrameTrim.getD 13 0)) ∧
    (ethZero.DecodeFromBytes dfZero exFrameTrim).2.1 = dfZero) :=
  ⟨⟨by decide, by decide, by decide⟩,
    ethernet_decode_trim ethZero dfZero exFrameTrim
      (by decide) (by decide) (by decide)⟩

/-- C10: on a header view of at least 12 bytes, applying `SwapSrcDst`
twice restores the header; after one swap `GetSrcAddress` returns the old
destination, `GetDestAddress` returns the old source, and all bytes from
index 12 on are unchanged. -/
theorem ethernet_swap_src_dst (o : EthernetHeader) (h : 12 ≤ o.length) :
    (o.SwapSrcDst).SwapSrcDst = o ∧
    (o.SwapSrcDst).GetSrcAddress = o.GetDestAddress ∧
    (o.SwapSrcDst).GetDestAddress = o.GetSrcAddress ∧
    (o.SwapSrcDst).drop 12 = o.drop 12 := by
  obtain ⟨hrep, ha, hb⟩ := header_decomp o h
  have h1 : o.SwapSrcDst = (o.drop 6).take 6 ++ o.take 6 ++ o.drop 12 := rfl
  refine ⟨?_, ?_, ?_, ?_⟩
  · rw [h1, swapSrcDst_append _ _ _ hb ha]
    exact hrep.symm
  · rw [h1, getSrc_append _ _ _ hb ha]
    rfl
  · rw [h1, getDest_append _ _ _ hb]
    rfl
  · rw [h1, drop12_append _ _ _ hb ha]

/-- Instantiation of `ethernet_swap_src_dst` on a concrete 14-byte
header. -/
theorem ethernet_swap_src_dst_witness :
    12 ≤ exHeader.length ∧
    ((exHeader.SwapSrcDst).SwapSrcDst = exHeader ∧
    (exHeader.SwapSrcDst).GetSrcAddress = exHeader.GetDestAddress ∧
    (exHeader.SwapSrcDst).GetDestAddress = exHeader.GetSrcAddress ∧
    (exHeader.SwapSrcDst).drop 12 = exHeader.drop 12) :=
  ⟨by decide, ethernet_swap_src_dst exHeader (by decide)⟩

theorem effLength_false (eth : Ethernet) (b : List Nat) :
    effLength eth false b = eth.length := rfl

/-- C2: decoding any buffer of at least 14 bytes and then serializing the
resulting layer with `FixLengths` off succeeds and reproduces the original
14 header bytes exactly as the first 14 bytes of the serialization
buffer. -/
theorem ethernet_decode_serialize_roundtrip (eth : Ethernet)
    (df : DecodeFeedback) (data buf : List Nat) (h14 : 14 ≤ data.length)
    (hbytes : ∀ x ∈ data, x < 256) :
    (eth.DecodeFromBytes df data).2.2 = none ∧
    (((eth.DecodeFromBytes df data).1).SerializeTo false buf).2 = none ∧
    (((eth.DecodeFromBytes df data).1).SerializeTo false buf).1.take 14 =
      data.take 14 := by
  obtain ⟨he, hd, hs, hc, hlt, hge⟩ := decode_fields eth df data h14
  have hb12 : data.getD 12 0 < 256 := getD_mem_lt data 12 (by omega) hbytes
  have hb13 : data.getD 13 0 < 256 := getD_mem_lt data 13 (by omega) hbytes
  have hfx : (Ethernet.parseFixed data).ethernetType =
      bigEndianUint16 (data.getD 12 0) (data.getD 13 0) := rfl
  have hdlen : ((eth.DecodeFromBytes df data).1).dstMAC.length = 6 := by
    rw [hd, List.length_take]; omega
  have hslen : ((eth.DecodeFromBytes df data).1).srcMAC.length = 6 := by
    rw [hs, List.length_take, List.length_drop]; omega
  have hxlen : (((eth.DecodeFromBytes df data).1).dstMAC ++
      ((eth.DecodeFromBytes df data).1).srcMAC ++
      putUint16 (bigEndianUint16 (data.getD 12 0) (data.getD 13 0))).length
      = 14 := by
    rw [List.length_append, List.length_append, putUint16_length,
      hdlen, hslen]
  by_cases hty : (Ethernet.parseFixed data).ethernetType < 0x0600
  · obtain ⟨hT, hLen⟩ := hlt hty
    have hle : effLength ((eth.DecodeFromBytes df data).1) false buf
        ≤ 0x0600 := by
      rw [effLength_false, hLen]; omega
    have hser := serializeTo_llc_eq ((eth.DecodeFromBytes df data).1)
      false buf hdlen hslen hT hle
    have harg : effLength ((eth.DecodeFromBytes df data).1) false buf =
        bigEndianUint16 (data.getD 12 0) (data.getD 13 0) := by
      rw [effLength_false, hLen, hfx]
    rw [harg] at hser
    refine ⟨he, ?_, ?_⟩
    · rw [hser]; exact ethPad_err _
    · rw [hser, ethPad_take14 _ _ hxlen, hd, hs]
      exact (take14_decomp data h14 hb12 hb13).symm
  · obtain ⟨hT, hLen⟩ := hge (by omega)
    have hTne : ((eth.DecodeFromBytes df data).1).ethernetType ≠
        EthernetTypeLLC := by
      rw [hT]
      simp only [EthernetTypeLLC]
      omega
    have hser := serializeTo_type_eq ((eth.DecodeFromBytes df data).1)
      false buf hdlen hslen hLen hTne
    have harg : ((eth.DecodeFromBytes df data).1).ethernetType % 65536 =
        bigEndianUint16 (data.getD 12 0) (data.getD 13 0) := by
      rw [hT, hfx]
      exact Nat.mod_eq_of_lt (bigEndianUint16_lt _ _ hb12 hb13)
    rw [harg] at hser
    refine ⟨he, ?_, ?_⟩
    · rw [hser]; exact ethPad_err _
    · rw [hser, ethPad_take14 _ _ hxlen, hd, hs]
      exact (take14_decomp data h14 hb12 hb13).symm

/-- Instantiation of `ethernet_decode_serialize_roundtrip` on the spec's
worked example frame, serializing onto a buffer holding its payload. -/
theorem ethernet_decode_serialize_roundtrip_witness :
    (14 ≤ exFrameIPv4.length ∧ ∀ x ∈ exFrameIPv4, x < 256) ∧
    ((ethZero.DecodeFromBytes dfZero exFrameIPv4).2.2 = none ∧
    (((ethZero.DecodeFromBytes dfZero exFrameIPv4).1).SerializeTo false
      (List.replicate 46 0)).2 = none ∧
    (((ethZero.DecodeFromBytes dfZero exFrameIPv4).1).SerializeTo false
      (List.replicate 46 0)).1.take 14 = exFrameIPv4.take 14) :=
  ⟨⟨by decide, by decide⟩,
    ethernet_decode_serialize_roundtrip ethZero dfZero exFrameIPv4
      (List.replicate 46 0) (by decide) (by decide)⟩

theorem ethPad_drop12_take2 (d s : List Nat) (hd : d.length = 6)
    (hs : s.length = 6) (v : Nat) (b : List Nat) :
    (((ethPad (d ++ s ++ putUint16 v ++ b)).1).drop 12).take 2 =
      putUint16 v := by
  rw [ethPad_bytes, List.append_assoc (d ++ s ++ putUint16 v) b,
    List.append_assoc (d ++ s) (putUint16 v),
    List.drop_left' (by rw [List.length_append, hd, hs]),
    List.take_left' (putUint16_length v)]

/-- C6 counterexample: with `EthernetType = EthernetTypeLLC` and
`Length = 0x0600` — an effective length that does not fit the `< 0x0600`
range — `SerializeTo` nevertheless succeeds, so the claim that it fails
whenever the effective length does not fit that range is false as
stated. -/
theorem ethernet_serialize_length_boundary_cex :
    ethBoundary.ethernetType = EthernetTypeLLC ∧
    ¬ effLength ethBoundary false [] < 0x0600 ∧
    (ethBoundary.SerializeTo false []).2 = none := by decide

/-- C6 (amended): in length mode with the sentinel type, `SerializeTo`
fails whenever the effective length (after any `FixLengths` recomputation)
exceeds `0x0600` — values up to and including `0x0600` are accepted — and
on success it writes that length big-endian into bytes 12:14 of the
prepended header. -/
theorem ethernet_serialize_length_check (eth : Ethernet) (fl : Bool)
    (b : List Nat) (hty : eth.ethernetType = EthernetTypeLLC) :
    (0x0600 < effLength eth fl b → (eth.SerializeTo fl b).2 ≠ none) ∧
    ((eth.SerializeTo fl b).2 = none →
      (((eth.SerializeTo fl b).1).drop 12).take 2 =
        putUint16 (effLength eth fl b)) := by
  constructor
  · intro hgt
    unfold Ethernet.SerializeTo
    split_ifs with h1 h2 h3 h4
    · simp
    · simp
    · simp
    · simp
    · exact absurd (Or.inr hty) h3
  · intro hsucc
    unfold Ethernet.SerializeTo at hsucc ⊢
    split_ifs at hsucc ⊢ with h1 h2 h3 h4
    · simp only [ne_eq, not_not] at h1 h2
      exact ethPad_drop12_take2 _ _ h1 h2 _ b
    · exact absurd (Or.inr hty) h3

/-- Instantiation of `ethernet_serialize_length_check` on a length-mode
layer with `Length = 5` over a 5-byte buffer. -/
theorem ethernet_serialize_length_check_witness :
    ethLLC.ethernetType = EthernetTypeLLC ∧
    ((0x0600 < effLength ethLLC false (List.replicate 5 9) →
      (ethLLC.SerializeTo false (List.replicate 5 9)).2 ≠ none) ∧
    ((ethLLC.SerializeTo false (List.replicate 5 9)).2 = none →
      (((ethLLC.SerializeTo false (List.replicate 5 9)).1).drop 12).take 2 =
        putUint16 (effLength ethLLC false (List.replicate 5 9)))) :=
  ⟨by decide,
    ethernet_serialize_length_check ethLLC false (List.replicate 5 9)
      (by decide)⟩

/-- C7: a layer whose `Length` is nonzero but whose `EthernetType` is not
the length-prefixed sentinel never serializes successfully. -/
theorem ethernet_serialize_length_mode_mismatch (eth : Ethernet)
    (fl : Bool) (b : List Nat) (hlen : eth.length ≠ 0)
    (hty : eth.ethernetType ≠ EthernetTypeLLC) :
    (eth.SerializeTo fl b).2 ≠ none := by
  unfold Ethernet.SerializeTo
  split_ifs with h1 h2 h3
  · simp
  · simp
  · simp
  · exact absurd (Or.inl hlen) h3

/-- Instantiation of `ethernet_serialize_length_mode_mismatch` on a layer
with `Length = 7` and `EthernetType = 0x0800`. -/
theorem ethernet_serialize_length_mode_mismatch_witness :
    (ethBadMode.length ≠ 0 ∧ ethBadMode.ethernetType ≠ EthernetTypeLLC) ∧
    (ethBadMode.SerializeTo false []).2 ≠ none :=
  ⟨⟨by decide, by decide⟩,
    ethernet_serialize_length_mode_mismatch ethBadMode false []
      (by decide) (by decide)⟩

/-- C8: whenever `SerializeTo` succeeds, a buffer shorter than 60 bytes
after prepending the 14-byte header is zero-padded to exactly 60 bytes,
while a buffer already holding 60 or more bytes gets no padding; the
padding step itself never produces an error. -/
theorem ethernet_serialize_padding (eth : Ethernet) (fl : Bool)
    (b : List Nat) (hsucc : (eth.SerializeTo fl b).2 = none) :
    (14 + b.length < 60 →
      (eth.SerializeTo fl b).1.length = 60 ∧
      (eth.SerializeTo fl b).1.drop (14 + b.length) =
        List.replicate (60 - (14 + b.length)) 0) ∧
    (60 ≤ 14 + b.length →
      (eth.SerializeTo fl b).1.length = 14 + b.length ∧
      (eth.SerializeTo fl b).1 =
        ((eth.SerializeTo fl b).1).take 14 ++ b) := by
  obtain ⟨hdr, hhdr, heq⟩ := serializeTo_success_shape eth fl b hsucc
  have hlen : (hdr ++ b).length = 14 + b.length := by
    rw [List.length_append, hhdr]
  constructor
  · intro hlt
    constructor
    · rw [heq, ethPad_bytes, List.length_append, List.length_replicate,
        hlen]
      omega
    · rw [heq, ethPad_bytes, hlen, List.drop_left' hlen]
  · intro hge
    have hz : 60 - (hdr ++ b).length = 0 := by omega
    constructor
    · rw [heq, ethPad_bytes, hz, List.replicate_zero, List.append_nil,
        hlen]
    · rw [heq, ethPad_bytes, hz, List.replicate_zero, List.append_nil,
        List.take_append_of_le_length (by omega), ← hhdr, List.take_length]

/-- Instantiation of `ethernet_serialize_padding` on a type-mode layer
over a 3-byte buffer, which gets padded to 60 bytes. -/
theorem ethernet_serialize_padding_witness :
    (ethIPv4.SerializeTo false (List.replicate 3 9)).2 = none ∧
    ((14 + (List.replicate 3 9 : List Nat).length < 60 →
      (ethIPv4.SerializeTo false (List.replicate 3 9)).1.length = 60 ∧
      (ethIPv4.SerializeTo false (List.replicate 3 9)).1.drop
          (14 + (List.replicate 3 9 : List Nat).length) =
        List.replicate (60 - (14 + (List.replicate 3 9 : List Nat).length)) 0) ∧
    (60 ≤ 14 + (List.replicate 3 9 : List Nat).length →
      (ethIPv4.SerializeTo false (List.replicate 3 9)).1.length =
        14 + (List.replicate 3 9 : List Nat).length ∧
      (ethIPv4.SerializeTo false (List.replicate 3 9)).1 =
        ((ethIPv4.SerializeTo false (List.replicate 3 9)).1).take 14 ++
          List.replicate 3 9)) :=
  ⟨by decide,
    ethernet_serialize_padding ethIPv4 false (List.replicate 3 9)
      (by decide)⟩

/-- C9: if either MAC address is not exactly 6 bytes wide, `SerializeTo`
fails, and it does so before writing anything: the serialization buffer
is returned untouched. -/
theorem ethernet_serialize_invalid_mac (eth : Ethernet) (fl : Bool)
    (b : List Nat)
    (h : eth.dstMAC.length ≠ 6 ∨ eth.srcMAC.length ≠ 6) :
    (eth.SerializeTo fl b).1 = b ∧ (eth.SerializeTo fl b).2 ≠ none := by
  unfold Ethernet.SerializeTo
  by_cases hd : eth.dstMAC.length ≠ 6
  · rw [if_pos hd]
    exact ⟨rfl, by simp⟩
  · have hsrc : eth.srcMAC.length ≠ 6 := h.resolve_left hd
    rw [if_neg hd, if_pos hsrc]
    exact ⟨rfl, by simp⟩

/-- Instantiation of `ethernet_serialize_invalid_mac` on a layer whose
destination address has 3 bytes. -/
theorem ethernet_serialize_invalid_mac_witness :
    (ethBadMAC.dstMAC.length ≠ 6 ∨ ethBadMAC.srcMAC.length ≠ 6) ∧
    ((ethBadMAC.SerializeTo false [5]).1 = [5] ∧
      (ethBadMAC.SerializeTo false [5]).2 ≠ none) :=
  ⟨by decide,
    ethernet_serialize_invalid_mac ethBadMAC false [5] (by decide)⟩
